import Mathlib

/-!
Verification of the captive-web-view development HTTP bridge (harness/server.py)
and the copyright-notice classifier (noticeChecker/noticed_file.py).

The Python source is shallowly embedded: the filesystem is a list of absolute
paths of regular files, paths are strings, JSON objects are insertion-ordered
association lists mirroring Python dict semantics, and the per-request handler
methods become pure functions from the request data and server state to an
outcome value.
-/

namespace CaptiveWebView

/- ### String helpers mirroring the Python primitives used by server.py -/

/-- One step of scanning for the final path segment: a separator resets the
segment accumulator, any other character extends it.  Folding this over the
characters of a string yields the substring after the last slash, which is
what os.path.basename returns for the slash-separated paths handled here. -/
def basenameStep (acc : List Char) (c : Char) : List Char :=
  if c = '/' then [] else acc ++ [c]

/-- os.path.basename for slash-separated paths: the substring after the last
slash (the whole string when it holds no slash). -/
def basename (s : String) : String :=
  String.mk (s.data.foldl basenameStep [])

/-- Python str.startswith on character lists. -/
def charsStartWith : List Char → List Char → Bool
  | _, [] => true
  | [], _ :: _ => false
  | c :: cs, d :: ds => decide (c = d) && charsStartWith cs ds

/-- Python str.startswith: the second string is an initial segment of the
first. -/
def pyStartsWith (s pat : String) : Bool :=
  charsStartWith s.data pat.data

/-- Python str.rpartition with separator "/": split around the last slash,
returning (before, separator, after); when no slash occurs the result is
("", "", s), exactly as in Python. -/
def rpartitionSlash (s : String) : String × String × String :=
  let rev := s.data.reverse
  let afterRev := rev.takeWhile (fun c => decide (c ≠ '/'))
  let rest := rev.dropWhile (fun c => decide (c ≠ '/'))
  match rest with
  | [] => ("", "", s)
  | _ :: beforeRev => (String.mk beforeRev.reverse, "/", String.mk afterRev.reverse)

/- ### Path Resolver: Server.path_for_file (server.py lines 70-77) -/

/-- The filesystem under test: the list of absolute paths that are regular
files.  `directory.joinpath(filename).is_file()` becomes membership of the
joined path in this list. -/
def is_file (fs : List String) (p : String) : Bool :=
  fs.any (fun q => decide (q = p))

/-- pathlib joinpath of a directory and a plain file name, rendered as a
string: the directory, a slash, and the name. -/
def joinpath (directory filename : String) : String :=
  directory ++ "/" ++ filename

/-- Lines 71-73 of server.py: the requested filename is reduced to its
basename, and an empty basename defaults to index.html. -/
def effective_basename (filename : String) : String :=
  let b := basename filename
  if b = "" then "index.html" else b

/-- The enumerate loop of path_for_file (lines 74-76): the server directories
paired index-wise with their relative paths; the first directory holding the
file wins and contributes its relative path joined with the filename. -/
def path_for_file_loop (fs : List String) (filename : String) :
    List (String × String) → Option String
  | [] => none
  | (directory, relativePath) :: rest =>
    if is_file fs (joinpath directory filename) then
      some (joinpath relativePath filename)
    else
      path_for_file_loop fs filename rest

/-- Server.path_for_file (lines 70-77): basename reduction with the
index.html default, the priority-ordered directory scan, and on failure the
ValueError whose message is the formatted text naming the missing file. -/
def path_for_file (fs : List String) (roots : List (String × String))
    (filename : String) : Except String String :=
  match path_for_file_loop fs (effective_basename filename) roots with
  | some responsePath => Except.ok responsePath
  | none =>
    Except.error ("File \"" ++ effective_basename filename ++ "\" not found.")

/- ### Static file responder: Handler.do_GET (server.py lines 154-198) -/

/-- Line 163 of server.py: the request is a root resource when
rpartition("/") leaves an empty head and the separator is "/" or absent,
i.e. the path holds no slash beyond an optional leading one. -/
def isRootResource (path : String) : Bool :=
  decide ((rpartitionSlash path).1 = "") &&
    (decide ((rpartitionSlash path).2.1 = "/") ||
      decide ((rpartitionSlash path).2.1 = ""))

/-- Line 173-174 of server.py: strip one leading slash, if present. -/
def stripLeadingSlash (path : String) : String :=
  if pyStartsWith path "/" then String.mk (path.data.drop 1) else path

/-- The enumerate-and-break loop of lines 175-178: index of the first
relative root that is a string prefix of the effective path. -/
def firstMatchIndex (effectivePath : String) : List String → Option Nat
  | [] => none
  | relativeRoot :: rest =>
    if pyStartsWith effectivePath relativeRoot then some 0
    else (firstMatchIndex effectivePath rest).map (fun i => i + 1)

/-- Outcome of Handler.do_GET: serve the rewritten path via the inherited
static handler, or send an error status. -/
inductive GetResponse
  | serve (path : String)
  | notFound (message : String)
  | forbidden
deriving DecidableEq, Repr

/-- Handler.do_GET (lines 154-198): root resources resolve immediately, with
ValueError mapped to 404; other paths must start with some relative root
after stripping one leading slash, else 403; validated paths resolve through
path_for_file, with ValueError mapped to 404; success rewrites the request
path to the resolved relative path. -/
def do_GET (fs : List String) (roots : List (String × String))
    (path : String) : GetResponse :=
  if isRootResource path then
    match path_for_file fs roots path with
    | Except.ok responsePath => GetResponse.serve responsePath
    | Except.error message => GetResponse.notFound message
  else
    match firstMatchIndex (stripLeadingSlash path) (roots.map Prod.snd) with
    | none => GetResponse.forbidden
    | some _ =>
      match path_for_file fs roots path with
      | Except.ok responsePath => GetResponse.serve responsePath
      | Except.error message => GetResponse.notFound message

/- ### JSON objects and the command dispatcher: Main.handle_command
     (server.py lines 274-305) -/

/-- JSON-compatible values as passed between the POST body, the handlers and
the response encoder.  The dispatcher never inspects inside a value, only
object keys, so scalar, array and object payloads are all carried. -/
inductive JSONValue
  | null
  | bool (b : Bool)
  | num (n : Int)
  | str (s : String)
deriving DecidableEq, Repr

/-- A CommandObject or ResponseObject: a Python dict of string keys, as an
insertion-ordered association list without duplicate keys (the order is
exactly dict insertion order, which Python preserves). -/
abbrev CmdObj : Type := List (String × JSONValue)

/-- Python `key in dict`. -/
def hasKey : CmdObj → String → Bool
  | [], _ => false
  | (k0, _) :: rest, k => if k0 = k then true else hasKey rest k

/-- Python `dict[key]` lookup, as an option. -/
def lookupKey : CmdObj → String → Option JSONValue
  | [], _ => none
  | (k0, v0) :: rest, k => if k0 = k then some v0 else lookupKey rest k

/-- Python `dict[key] = value` and the `{**d, key: value}` update: replace the
value in place when the key is present, append the entry otherwise. -/
def setKey : CmdObj → String → JSONValue → CmdObj
  | [], k, v => [(k, v)]
  | (k0, v0) :: rest, k, v =>
    if k0 = k then (k, v) :: rest else (k0, v0) :: setKey rest k v

/-- The handler loop of handle_command (lines 275-279): call each handler in
registration order with the command object and the connection context; the
first non-None response wins and stops the loop. -/
def dispatchLoop {α : Type} :
    List (CmdObj → α → Option CmdObj) → CmdObj → α → Option CmdObj
  | [], _, _ => none
  | handler :: rest, commandObject, httpHandler =>
    match handler commandObject httpHandler with
    | some response => some response
    | none => dispatchLoop rest commandObject httpHandler

/-- The response selected before envelope normalization: the first handler
response, or on a total miss the shallow copy of the command object with the
"failed": "Unhandled." entry set (lines 296-297). -/
def chosenResponse {α : Type} (commandHandlers : List (CmdObj → α → Option CmdObj))
    (commandObject : CmdObj) (httpHandler : α) : CmdObj :=
  match dispatchLoop commandHandlers commandObject httpHandler with
  | some response => response
  | none => setKey commandObject "failed" (JSONValue.str "Unhandled.")

/-- Main.handle_command (lines 274-305): run the handler chain, synthesize
the "failed": "Unhandled." response on a total miss, and add a "confirm"
entry joining the class name, server version and runtime version when the
response has neither a "failed" nor a "confirm" key. -/
def handle_command {α : Type} (commandHandlers : List (CmdObj → α → Option CmdObj))
    (commandObject : CmdObj) (httpHandler : α)
    (className serverVersion sysVersion : String) : CmdObj :=
  if hasKey (chosenResponse commandHandlers commandObject httpHandler) "failed"
      || hasKey (chosenResponse commandHandlers commandObject httpHandler) "confirm" then
    chosenResponse commandHandlers commandObject httpHandler
  else
    setKey (chosenResponse commandHandlers commandObject httpHandler) "confirm"
      (JSONValue.str (className ++ " " ++ serverVersion ++ " " ++ sysVersion))

/- ### POST transport: Handler.do_POST (server.py lines 208-230) -/

/-- Outcome of Handler.do_POST: a 200 response carrying a JSON object, no
response when handle_command returned None, a 400 for a missing body, a 501
for a raising handler, or an uncaught json.loads fault. -/
inductive PostOutcome
  | response (responseObject : CmdObj)
  | silent
  | badRequest
  | handlerFault
  | parseFault
deriving DecidableEq, Repr

/-- Handler.do_POST (lines 208-230).  The Content-Length header is carried
already converted to an integer (absent headers count as zero, line 211-212);
the body is only read when the length is positive; json.loads is a parameter
returning its parsed value, with Except.error for a raised decode fault and
ok none for the JSON null document, which Python decodes to None; the
server's handle_command is a parameter returning Except.error when it
raises.  A None command is rejected with 400 before any handler runs; a
raising handler yields 501; a None handler result sends nothing. -/
def contentLengthOf (contentLengthHeader : Option Int) : Int :=
  match contentLengthHeader with
  | none => 0
  | some n => n

def do_POST (contentLengthHeader : Option Int) (readBody : Int → String)
    (parseJSON : String → Except Unit (Option JSONValue))
    (serverHandleCommand : JSONValue → Except Unit (Option CmdObj)) : PostOutcome :=
  match
    (if contentLengthOf contentLengthHeader > 0 then
      some (readBody (contentLengthOf contentLengthHeader))
    else none) with
  | none => PostOutcome.badRequest
  | some contentJSON =>
    match parseJSON contentJSON with
    | Except.error _ => PostOutcome.parseFault
    | Except.ok none => PostOutcome.badRequest
    | Except.ok (some content) =>
      match serverHandleCommand content with
      | Except.error _ => PostOutcome.handlerFault
      | Except.ok none => PostOutcome.silent
      | Except.ok (some responseObject) => PostOutcome.response responseObject

/- ### Startup: Main.__init__ and Main.__call__ (server.py lines 234-272) -/

/-- The externally visible startup events.  socketOpen is the Server
construction on line 250: HTTPServer.__init__ with the default
bind_and_activate binds and activates (listens on) the server socket before
returning.  configError is the ValueError raised on line 269 for a
configured root that is not a directory.  serveForever is the call on line
272 that starts accepting connections. -/
inductive StartupEvent
  | socketOpen
  | configError (directory : String)
  | serveForever
deriving DecidableEq, Repr

/-- The directory check loop of Main.__call__ (lines 267-269): the first
configured root that is not a directory raises with that directory named. -/
def checkDirectories (isDir : String → Bool) : List String → Except String Unit
  | [] => Except.ok ()
  | d :: rest => if isDir d then checkDirectories isDir rest else Except.error d

/-- Events of Main.__call__ (lines 265-272): the directory check either
raises, aborting startup, or the server proceeds to serve_forever. -/
def mainCallTrace (isDir : String → Bool) (dirs : List String) : List StartupEvent :=
  match checkDirectories isDir dirs with
  | Except.ok _ => [StartupEvent.serveForever]
  | Except.error d => [StartupEvent.configError d]

/-- The whole startup sequence: Main.__init__ constructs the Server, opening
the listening socket (line 250), and Main.__call__ then validates the
configured roots before serving. -/
def startupTrace (isDir : String → Bool) (dirs : List String) : List StartupEvent :=
  StartupEvent.socketOpen :: mainCallTrace isDir dirs

/- ### Notice classifier: NoticedFile.from_notice
     (noticeChecker/noticed_file.py lines 77-98) -/

/-- A calendar date as used by datetime.date; only the year is read by the
notice classifier. -/
structure PyDate where
  year : Int
  month : Nat
  day : Nat
deriving DecidableEq, Repr

/-- The five classification states of NoticeState. -/
inductive NoticeState
  | EXEMPT
  | MISSING
  | CORRECT
  | INCORRECT_DATE
  | ERROR
deriving DecidableEq, Repr

/-- The one-character progress symbol each NoticeState carries as its enum
value in noticed_file.py. -/
def noticeStateSymbol : NoticeState → String
  | NoticeState.EXEMPT => "-"
  | NoticeState.MISSING => "0"
  | NoticeState.CORRECT => "."
  | NoticeState.INCORRECT_DATE => "X"
  | NoticeState.ERROR => "!"

/-- The DiscoveredNotice input of from_notice.  Its defining module,
noticeChecker/copyright_notice.py, is not among the sources; the fields here
are the ones noticed_file.py reads: the scanned path, the matched notice
style (None when no notice was found), the claimed year, and the text after
the year. -/
structure DiscoveredNotice where
  path : String
  style : Option String
  year : Int
  suffix : String
deriving DecidableEq, Repr

/-- The NoticedFile named tuple of noticed_file.py. -/
structure NoticedFile where
  path : String
  modifiedDate : Option PyDate
  notice : Option DiscoveredNotice
  state : NoticeState
  exception : Option Unit
deriving DecidableEq, Repr

/-- Lines 82-89 of noticed_file.py: the last-modified date is the filesystem
stat date when git reports the file differs from the repository, otherwise
the git log date, falling back to the stat date when the git query raises. -/
def modifiedDateOf (statDate : PyDate) (gitIsDifferent : Bool)
    (gitModifiedDate : Except Unit PyDate) : PyDate :=
  if gitIsDifferent then statDate
  else
    match gitModifiedDate with
    | Except.ok d => d
    | Except.error _ => statDate

/-- NoticedFile.from_notice (lines 77-98): compute the modified date, keep
the notice only when a style was found, and classify as MISSING without a
style, INCORRECT_DATE when the claimed year differs from the modified year,
and CORRECT otherwise.  The git results and the stat date are inputs because
they come from the filesystem and the git command line. -/
def from_notice (notice : DiscoveredNotice) (statDate : PyDate)
    (gitIsDifferent : Bool) (gitModifiedDate : Except Unit PyDate) : NoticedFile :=
  { path := notice.path
  , modifiedDate := some (modifiedDateOf statDate gitIsDifferent gitModifiedDate)
  , notice :=
      match notice.style with
      | none => none
      | some _ => some notice
  , state :=
      match notice.style with
      | none => NoticeState.MISSING
      | some _ =>
        if notice.year ≠ (modifiedDateOf statDate gitIsDifferent gitModifiedDate).year
        then NoticeState.INCORRECT_DATE
        else NoticeState.CORRECT
  , exception := none }

/-! ### Helper lemmas -/

theorem foldl_basenameStep_no_slash_mem :
    ∀ (cs acc : List Char), '/' ∉ acc → '/' ∉ cs.foldl basenameStep acc := by
  intro cs
  induction cs with
  | nil => intro acc h; exact h
  | cons c rest ih =>
    intro acc h
    simp only [List.foldl_cons]
    apply ih
    unfold basenameStep
    by_cases hc : c = '/'
    · simp [hc]
    · simp only [if_neg hc, List.mem_append, List.mem_singleton]
      rintro (hacc | hceq)
      · exact h hacc
      · exact hc hceq.symm

theorem foldl_basenameStep_of_no_slash :
    ∀ (cs acc : List Char), '/' ∉ cs → cs.foldl basenameStep acc = acc ++ cs := by
  intro cs
  induction cs with
  | nil => intro acc _; simp
  | cons c rest ih =>
    intro acc h
    simp only [List.mem_cons, not_or] at h
    simp only [List.foldl_cons]
    have hstep : basenameStep acc c = acc ++ [c] := by
      unfold basenameStep
      rw [if_neg (fun hc => h.1 hc.symm)]
    rw [hstep, ih (acc ++ [c]) h.2]
    simp

theorem basename_idem (f : String) : basename (basename f) = basename f := by
  unfold basename
  have h1 : '/' ∉ f.data.foldl basenameStep [] :=
    foldl_basenameStep_no_slash_mem f.data [] (by simp)
  show String.mk ((f.data.foldl basenameStep []).foldl basenameStep [])
      = String.mk (f.data.foldl basenameStep [])
  rw [foldl_basenameStep_of_no_slash _ [] h1]
  simp

theorem effective_basename_basename (f : String) :
    effective_basename (basename f) = effective_basename f := by
  unfold effective_basename
  rw [basename_idem]

theorem path_for_file_congr (fs : List String) (roots : List (String × String))
    (f1 f2 : String) (h : effective_basename f1 = effective_basename f2) :
    path_for_file fs roots f1 = path_for_file fs roots f2 := by
  unfold path_for_file
  rw [h]

theorem path_for_file_loop_found (fs : List String) (b : String) :
    ∀ (before : List (String × String)) (d r : String)
      (after : List (String × String)),
      (∀ dr ∈ before, is_file fs (joinpath dr.1 b) = false) →
      is_file fs (joinpath d b) = true →
      path_for_file_loop fs b (before ++ (d, r) :: after) = some (joinpath r b) := by
  intro before
  induction before with
  | nil =>
    intro d r after _ hd
    simp [path_for_file_loop, hd]
  | cons dr rest ih =>
    intro d r after hbefore hd
    obtain ⟨d0, r0⟩ := dr
    have h0 : is_file fs (joinpath d0 b) = false := hbefore (d0, r0) (by simp)
    simp only [List.cons_append, path_for_file_loop, h0]
    simp only [Bool.false_eq_true, if_false]
    exact ih d r after (fun x hx => hbefore x (List.mem_cons_of_mem _ hx)) hd

theorem path_for_file_loop_none (fs : List String) (b : String) :
    ∀ (roots : List (String × String)),
      (∀ dr ∈ roots, is_file fs (joinpath dr.1 b) = false) →
      path_for_file_loop fs b roots = none := by
  intro roots
  induction roots with
  | nil => intro _; rfl
  | cons dr rest ih =>
    intro h
    obtain ⟨d0, r0⟩ := dr
    have h0 : is_file fs (joinpath d0 b) = false := h (d0, r0) (by simp)
    simp only [path_for_file_loop, h0, Bool.false_eq_true, if_false]
    exact ih (fun x hx => h x (List.mem_cons_of_mem _ hx))

theorem firstMatchIndex_eq_none (effectivePath : String) :
    ∀ (rels : List String),
      (∀ rel ∈ rels, pyStartsWith effectivePath rel = false) →
      firstMatchIndex effectivePath rels = none := by
  intro rels
  induction rels with
  | nil => intro _; rfl
  | cons rel rest ih =>
    intro h
    have h0 : pyStartsWith effectivePath rel = false := h rel (by simp)
    simp only [firstMatchIndex, h0, Bool.false_eq_true, if_false]
    rw [ih (fun x hx => h x (List.mem_cons_of_mem _ hx))]
    rfl

theorem dispatchLoop_eq_none {α : Type}
    (handlers : List (CmdObj → α → Option CmdObj)) (commandObject : CmdObj)
    (httpHandler : α) (h : ∀ handler ∈ handlers, handler commandObject httpHandler = none) :
    dispatchLoop handlers commandObject httpHandler = none := by
  induction handlers with
  | nil => rfl
  | cons handler rest ih =>
    have h0 : handler commandObject httpHandler = none := h handler (by simp)
    simp only [dispatchLoop, h0]
    exact ih (fun x hx => h x (List.mem_cons_of_mem _ hx))

theorem hasKey_setKey_self :
    ∀ (m : CmdObj) (k : String) (v : JSONValue), hasKey (setKey m k v) k = true := by
  intro m k v
  induction m with
  | nil => simp [setKey, hasKey]
  | cons kv rest ih =>
    obtain ⟨k0, v0⟩ := kv
    by_cases hk : k0 = k
    · simp [setKey, hasKey, hk]
    · simp only [setKey, if_neg hk, hasKey, ih, if_neg hk]

theorem hasKey_setKey_ne :
    ∀ (m : CmdObj) (k : String) (v : JSONValue) (k2 : String), k ≠ k2 →
      hasKey (setKey m k v) k2 = hasKey m k2 := by
  intro m k v k2 hne
  induction m with
  | nil => simp [setKey, hasKey, hne]
  | cons kv rest ih =>
    obtain ⟨k0, v0⟩ := kv
    by_cases hk : k0 = k
    · subst hk
      simp [setKey, hasKey, hne]
    · simp only [setKey, if_neg hk, hasKey, ih]

theorem lookupKey_setKey_ne :
    ∀ (m : CmdObj) (k : String) (v : JSONValue) (k2 : String), k ≠ k2 →
      lookupKey (setKey m k v) k2 = lookupKey m k2 := by
  intro m k v k2 hne
  induction m with
  | nil => simp [setKey, lookupKey, hne]
  | cons kv rest ih =>
    obtain ⟨k0, v0⟩ := kv
    by_cases hk : k0 = k
    · subst hk
      simp [setKey, lookupKey, hne]
    · simp only [setKey, if_neg hk, lookupKey, ih]

/-! ### Claim theorems -/

/-- Claim C1: when the effective basename of the requested filename is a
regular file under the root at the first position of a priority split (no
earlier root holds it), path_for_file returns that root's relative path
joined with the basename; and in the concrete scenario with roots /app/web
and /app/lib where only /app/lib/index.html exists, GET /web/index.html is
served from lib/index.html — the basename search spans all roots, not only
the one whose relative-root matched during GET validation. -/
theorem claim_C1 :
    (∀ (fs : List String) (before : List (String × String)) (d r : String)
        (after : List (String × String)) (filename b : String),
      effective_basename filename = b →
      (∀ dr ∈ before, is_file fs (joinpath dr.1 b) = false) →
      is_file fs (joinpath d b) = true →
      path_for_file fs (before ++ (d, r) :: after) filename
        = Except.ok (joinpath r b)) ∧
    do_GET ["/app/lib/index.html"] [("/app/web", "web"), ("/app/lib", "lib")]
        "/web/index.html"
      = GetResponse.serve "lib/index.html" := by
  constructor
  · intro fs before d r after filename b hb hbefore hd
    unfold path_for_file
    rw [hb, path_for_file_loop_found fs b before d r after hbefore hd]
  · decide

/-- Witness for claim C1 at a concrete input: a.html exists under both roots
and resolution picks the highest-priority (first) root. -/
theorem claim_C1_witness :
    path_for_file ["/app/web/a.html", "/app/lib/a.html"]
        [("/app/web", "web"), ("/app/lib", "lib")] "/x/a.html"
      = Except.ok (joinpath "web" "a.html") :=
  claim_C1.1 ["/app/web/a.html", "/app/lib/a.html"] [] "/app/web" "web"
    [("/app/lib", "lib")] "/x/a.html" "a.html" (by decide) (by decide) (by decide)

/-- Claim C2: a GET whose path is not a root resource and whose path, after
stripping a single leading slash, starts with no registered relative root is
answered 403 — for every filesystem, so also when a file with that basename
exists under some root. -/
theorem claim_C2 (fs : List String) (roots : List (String × String))
    (path : String) (hroot : isRootResource path = false)
    (hmatch : ∀ rel ∈ roots.map Prod.snd,
      pyStartsWith (stripLeadingSlash path) rel = false) :
    do_GET fs roots path = GetResponse.forbidden := by
  unfold do_GET
  rw [hroot]
  simp only [Bool.false_eq_true, if_false]
  rw [firstMatchIndex_eq_none (stripLeadingSlash path) (roots.map Prod.snd) hmatch]

/-- Witness for claim C2 at a concrete input: x.html exists under the only
root, yet the request with a non-matching path head is forbidden. -/
theorem claim_C2_witness :
    do_GET ["/app/web/x.html"] [("/app/web", "web")] "/other/x.html"
      = GetResponse.forbidden :=
  claim_C2 ["/app/web/x.html"] [("/app/web", "web")] "/other/x.html"
    (by decide) (by decide)

/-- Claim C3: when every handler in the chain returns the no-response
sentinel, handle_command returns exactly the shallow copy of the command
object with the "failed": "Unhandled." entry set, and a "confirm" key is
present only when the command object already carried one. -/
theorem claim_C3 (α : Type) (handlers : List (CmdObj → α → Option CmdObj))
    (commandObject : CmdObj) (httpHandler : α) (className serverVersion sysVersion : String)
    (hall : ∀ handler ∈ handlers, handler commandObject httpHandler = none) :
    handle_command handlers commandObject httpHandler className serverVersion sysVersion
        = setKey commandObject "failed" (JSONValue.str "Unhandled.") ∧
    hasKey (handle_command handlers commandObject httpHandler
        className serverVersion sysVersion) "confirm"
      = hasKey commandObject "confirm" := by
  have hd : dispatchLoop handlers commandObject httpHandler = none :=
    dispatchLoop_eq_none handlers commandObject httpHandler hall
  have hchosen : chosenResponse handlers commandObject httpHandler
      = setKey commandObject "failed" (JSONValue.str "Unhandled.") := by
    unfold chosenResponse
    rw [hd]
  have hmain : handle_command handlers commandObject httpHandler
      className serverVersion sysVersion
        = setKey commandObject "failed" (JSONValue.str "Unhandled.") := by
    unfold handle_command
    rw [hchosen, hasKey_setKey_self]
    simp
  refine ⟨hmain, ?_⟩
  rw [hmain, hasKey_setKey_ne commandObject "failed" (JSONValue.str "Unhandled.")
    "confirm" (by decide)]

/-- Witness for claim C3 at a concrete input: one handler that declines
every command, and a command object without status keys. -/
theorem claim_C3_witness :
    handle_command [fun (_ : CmdObj) (_ : Unit) => none]
        [("cmd", JSONValue.str "go")] () "Main" "SV" "PV"
      = setKey [("cmd", JSONValue.str "go")] "failed" (JSONValue.str "Unhandled.") :=
  (claim_C3 Unit [fun _ _ => none] [("cmd", JSONValue.str "go")] () "Main" "SV" "PV"
    (by simp)).1

/-- Claim C4: handle_command adds a "confirm" entry exactly when the chosen
or synthesized response carries neither a "failed" nor a "confirm" key; in
that case every other entry is preserved, and when either key is already
present the response is returned unchanged. -/
theorem claim_C4 (α : Type) (handlers : List (CmdObj → α → Option CmdObj))
    (commandObject : CmdObj) (httpHandler : α)
    (className serverVersion sysVersion : String) :
    (hasKey (chosenResponse handlers commandObject httpHandler) "failed" = false ∧
      hasKey (chosenResponse handlers commandObject httpHandler) "confirm" = false →
      handle_command handlers commandObject httpHandler className serverVersion sysVersion
          = setKey (chosenResponse handlers commandObject httpHandler) "confirm"
              (JSONValue.str (className ++ " " ++ serverVersion ++ " " ++ sysVersion)) ∧
      hasKey (handle_command handlers commandObject httpHandler
          className serverVersion sysVersion) "confirm" = true ∧
      ∀ k, k ≠ "confirm" →
        lookupKey (handle_command handlers commandObject httpHandler
            className serverVersion sysVersion) k
          = lookupKey (chosenResponse handlers commandObject httpHandler) k) ∧
    (hasKey (chosenResponse handlers commandObject httpHandler) "failed" = true ∨
      hasKey (chosenResponse handlers commandObject httpHandler) "confirm" = true →
      handle_command handlers commandObject httpHandler className serverVersion sysVersion
        = chosenResponse handlers commandObject httpHandler) := by
  constructor
  · rintro ⟨hf, hc⟩
    have hmain : handle_command handlers commandObject httpHandler
        className serverVersion sysVersion
          = setKey (chosenResponse handlers commandObject httpHandler) "confirm"
              (JSONValue.str (className ++ " " ++ serverVersion ++ " " ++ sysVersion)) := by
      unfold handle_command
      rw [hf, hc]
      simp
    refine ⟨hmain, ?_, ?_⟩
    · rw [hmain, hasKey_setKey_self]
    · intro k hk
      rw [hmain, lookupKey_setKey_ne _ "confirm" _ k (fun h => hk h.symm)]
  · intro hor
    unfold handle_command
    rcases hor with hf | hc
    · rw [hf]
      simp
    · rw [hc]
      simp

/-- Witness for claim C4 at a concrete input: a handler returning a response
with an "x" entry and no status key gets a "confirm" entry added while "x"
is preserved. -/
theorem claim_C4_witness :
    handle_command [fun (_ : CmdObj) (_ : Unit) => some [("x", JSONValue.num 1)]]
        [] () "Main" "SV" "PV"
      = setKey [("x", JSONValue.num 1)] "confirm" (JSONValue.str "Main SV PV") :=
  ((claim_C4 Unit [fun _ _ => some [("x", JSONValue.num 1)]] [] () "Main" "SV" "PV").1
    ⟨by decide, by decide⟩).1

/-- Claim C5: path_for_file on "" and on "/" behaves as on "index.html", and
in general the requested filename only matters through its basename: an
empty basename defaults to index.html. -/
theorem claim_C5 (fs : List String) (roots : List (String × String)) :
    path_for_file fs roots "" = path_for_file fs roots "index.html" ∧
    path_for_file fs roots "/" = path_for_file fs roots "index.html" ∧
    ∀ filename, path_for_file fs roots filename
      = path_for_file fs roots (basename filename) := by
  refine ⟨?_, ?_, ?_⟩
  · exact path_for_file_congr fs roots "" "index.html" (by decide)
  · exact path_for_file_congr fs roots "/" "index.html" (by decide)
  · intro filename
    exact path_for_file_congr fs roots filename (basename filename)
      (effective_basename_basename filename).symm

/-- Counterexample to claim C6 as stated: with an empty filesystem and root
/app/web, the 404 for /web/missing.html carries the formatted message
naming the file, which is neither the request path nor the bare basename. -/
theorem claim_C6_counterexample :
    do_GET [] [("/app/web", "web")] "/web/missing.html"
        = GetResponse.notFound ("File \"missing.html\" not found.") ∧
    do_GET [] [("/app/web", "web")] "/web/missing.html"
        ≠ GetResponse.notFound "/web/missing.html" ∧
    do_GET [] [("/app/web", "web")] "/web/missing.html"
        ≠ GetResponse.notFound "missing.html" := by
  decide

/-- Claim C6 as amended: when the effective basename of the requested
filename is a regular file under no configured root, path_for_file fails
with the ValueError text naming that basename, and do_GET maps the failure
to a 404 whose message is that same formatted text — both on the
root-resource branch and after successful prefix validation. -/
theorem claim_C6 (fs : List String) (roots : List (String × String))
    (filename : String)
    (hnone : ∀ dr ∈ roots, is_file fs (joinpath dr.1 (effective_basename filename)) = false) :
    path_for_file fs roots filename
        = Except.error ("File \"" ++ effective_basename filename ++ "\" not found.") ∧
    (isRootResource filename = true →
      do_GET fs roots filename
        = GetResponse.notFound
            ("File \"" ++ effective_basename filename ++ "\" not found.")) ∧
    (isRootResource filename = false →
      ∀ i, firstMatchIndex (stripLeadingSlash filename) (roots.map Prod.snd) = some i →
        do_GET fs roots filename
          = GetResponse.notFound
              ("File \"" ++ effective_basename filename ++ "\" not found.")) := by
  have herr : path_for_file fs roots filename
      = Except.error ("File \"" ++ effective_basename filename ++ "\" not found.") := by
    unfold path_for_file
    rw [path_for_file_loop_none fs (effective_basename filename) roots hnone]
  refine ⟨herr, ?_, ?_⟩
  · intro hroot
    unfold do_GET
    rw [hroot, herr]
    simp
  · intro hroot i hi
    unfold do_GET
    rw [hroot, hi, herr]
    simp

/-- Witness for claim C6 (amended) at a concrete input: the missing file
under the validated prefix yields the formatted 404 message. -/
theorem claim_C6_witness :
    path_for_file [] [("/app/web", "web")] "/web/missing.html"
      = Except.error ("File \"" ++ effective_basename "/web/missing.html" ++ "\" not found.") :=
  (claim_C6 [] [("/app/web", "web")] "/web/missing.html" (by decide)).1

/-- Claim C7: a POST whose Content-Length is absent or zero is answered 400,
and the outcome does not depend on the body reader, the JSON parser or the
command handler — nothing is read, parsed or dispatched. -/
theorem claim_C7 (contentLengthHeader : Option Int) (readBody readBody2 : Int → String)
    (parseJSON parseJSON2 : String → Except Unit (Option JSONValue))
    (handle handle2 : JSONValue → Except Unit (Option CmdObj))
    (h : contentLengthHeader = none ∨ contentLengthHeader = some 0) :
    do_POST contentLengthHeader readBody parseJSON handle = PostOutcome.badRequest ∧
    do_POST contentLengthHeader readBody parseJSON handle
      = do_POST contentLengthHeader readBody2 parseJSON2 handle2 := by
  rcases h with h | h <;> subst h <;> exact ⟨rfl, rfl⟩

/-- Witness for claim C7 at a concrete input: absent Content-Length with a
parser and handler that would succeed, against a parser and handler that
would fault. -/
theorem claim_C7_witness :
    do_POST none (fun _ => "") (fun _ => Except.ok (some JSONValue.null))
        (fun _ => Except.ok (some []))
      = PostOutcome.badRequest :=
  (claim_C7 none (fun _ => "") (fun _ => "body") (fun _ => Except.ok (some JSONValue.null))
    (fun _ => Except.error ()) (fun _ => Except.ok (some [])) (fun _ => Except.error ())
    (Or.inl rfl)).1

/-- Counterexample to claim C8 as stated: with the single configured root
"bad" and a filesystem where nothing is a directory, it is not the case
that the listening socket stays unopened — Server construction in
Main.__init__ opens it before Main.__call__ checks the directories. -/
theorem claim_C8_counterexample :
    ¬ ((∃ d ∈ ["bad"], (fun (_ : String) => false) d = false) →
      StartupEvent.socketOpen ∉ startupTrace (fun _ => false) ["bad"]) := by
  intro h
  exact h ⟨"bad", by simp⟩ (by decide)

/-- Claim C8 as amended: when some configured root is not a directory,
startup aborts with a configuration error naming such a root, and
serve_forever is never reached — no connection is served; the listening
socket, however, is already bound during Main.__init__. -/
theorem claim_C8 (isDir : String → Bool) (dirs : List String)
    (h : ∃ d ∈ dirs, isDir d = false) :
    StartupEvent.serveForever ∉ startupTrace isDir dirs ∧
    ∃ d ∈ dirs, isDir d = false ∧
      StartupEvent.configError d ∈ startupTrace isDir dirs := by
  have herr : ∃ d ∈ dirs, isDir d = false ∧ checkDirectories isDir dirs = Except.error d := by
    induction dirs with
    | nil => simp at h
    | cons d0 rest ih =>
      by_cases h0 : isDir d0 = false
      · exact ⟨d0, by simp, h0, by simp [checkDirectories, h0]⟩
      · have h0t : isDir d0 = true := by
          cases hv : isDir d0
          · exact absurd hv h0
          · rfl
        have hrest : ∃ d ∈ rest, isDir d = false := by
          obtain ⟨d, hd, hdf⟩ := h
          rcases List.mem_cons.mp hd with hdeq | hdm
          · subst hdeq
            exact absurd hdf h0
          · exact ⟨d, hdm, hdf⟩
        obtain ⟨d, hd, hdf, hchk⟩ := ih hrest
        exact ⟨d, List.mem_cons_of_mem _ hd, hdf, by simp [checkDirectories, h0t, hchk]⟩
  obtain ⟨d, hd, hdf, hchk⟩ := herr
  constructor
  · unfold startupTrace mainCallTrace
    rw [hchk]
    simp
  · refine ⟨d, hd, hdf, ?_⟩
    unfold startupTrace mainCallTrace
    rw [hchk]
    simp

/-- Witness for claim C8 (amended) at a concrete input. -/
theorem claim_C8_witness :
    StartupEvent.serveForever ∉ startupTrace (fun _ => false) ["bad"] ∧
    ∃ d ∈ ["bad"], (fun (_ : String) => false) d = false ∧
      StartupEvent.configError d ∈ startupTrace (fun _ => false) ["bad"] :=
  claim_C8 (fun _ => false) ["bad"] ⟨"bad", by simp⟩

/-- Claim C9: from_notice takes the last-modified date from the filesystem
stat when the file differs from the repository and otherwise from git with a
stat fallback, and classifies the file MISSING exactly when no notice style
was found, INCORRECT_DATE exactly when a style was found and the claimed
year differs from the modified year, and CORRECT otherwise. -/
theorem claim_C9 (notice : DiscoveredNotice) (statDate : PyDate)
    (gitIsDifferent : Bool) (gitModifiedDate : Except Unit PyDate)
    (d : PyDate) (e : Unit) :
    (from_notice notice statDate gitIsDifferent gitModifiedDate).modifiedDate
        = some (modifiedDateOf statDate gitIsDifferent gitModifiedDate) ∧
    ((from_notice notice statDate gitIsDifferent gitModifiedDate).state
        = NoticeState.MISSING ↔ notice.style = none) ∧
    ((from_notice notice statDate gitIsDifferent gitModifiedDate).state
        = NoticeState.INCORRECT_DATE ↔
      notice.style ≠ none ∧
        notice.year ≠ (modifiedDateOf statDate gitIsDifferent gitModifiedDate).year) ∧
    ((from_notice notice statDate gitIsDifferent gitModifiedDate).state
        = NoticeState.CORRECT ↔
      notice.style ≠ none ∧
        notice.year = (modifiedDateOf statDate gitIsDifferent gitModifiedDate).year) ∧
    modifiedDateOf statDate true gitModifiedDate = statDate ∧
    modifiedDateOf statDate false (Except.ok d) = d ∧
    modifiedDateOf statDate false (Except.error e) = statDate := by
  have hmd1 : modifiedDateOf statDate true gitModifiedDate = statDate := by
    simp [modifiedDateOf]
  have hmd2 : modifiedDateOf statDate false (Except.ok d) = d := by
    simp [modifiedDateOf]
  have hmd3 : modifiedDateOf statDate false (Except.error e) = statDate := by
    simp [modifiedDateOf]
  cases hstyle : notice.style with
  | none => simp [from_notice, hstyle, hmd1, hmd2, hmd3]
  | some style =>
    by_cases hy : notice.year
        = (modifiedDateOf statDate gitIsDifferent gitModifiedDate).year <;>
      simp [from_notice, hstyle, hy, hmd1, hmd2, hmd3]

/-- Claim C10: every response object produced by handle_command carries a
"failed" key or a "confirm" key — the dispatcher never returns the
no-response sentinel nor an object bare of both status keys. -/
theorem claim_C10 (α : Type) (handlers : List (CmdObj → α → Option CmdObj))
    (commandObject : CmdObj) (httpHandler : α)
    (className serverVersion sysVersion : String) :
    hasKey (handle_command handlers commandObject httpHandler
        className serverVersion sysVersion) "failed" = true ∨
    hasKey (handle_command handlers commandObject httpHandler
        className serverVersion sysVersion) "confirm" = true := by
  unfold handle_command
  by_cases hf : hasKey (chosenResponse handlers commandObject httpHandler) "failed" = true
  · left
    rw [hf]
    simpa using hf
  · by_cases hc : hasKey (chosenResponse handlers commandObject httpHandler) "confirm" = true
    · right
      rw [hc]
      simp [hc]
    · right
      simp only [Bool.not_eq_true] at hf hc
      rw [hf, hc]
      simpa using hasKey_setKey_self (chosenResponse handlers commandObject httpHandler)
        "confirm" (JSONValue.str (className ++ " " ++ serverVersion ++ " " ++ sysVersion))

end CaptiveWebView
